import Mathlib

/-!
Verification of the blogfolio content-and-configuration model.

The repository's authored data lives in `src/consts.ts` (site constants) and
in markdown frontmatter under `src/content/`.  The schema validation, sorting
and truncation behaviour is supplied by the surrounding static-site framework
and is modelled here from the specification.
-/

/-- Site configuration record, shaped after the `Site` type used by
`src/consts.ts` (fields NAME, EMAIL and the three homepage counts). -/
structure Site where
  NAME : String
  EMAIL : String
  NUM_POSTS_ON_HOMEPAGE : Nat
  NUM_WORKS_ON_HOMEPAGE : Nat
  NUM_PROJECTS_ON_HOMEPAGE : Nat

deriving DecidableEq

/-- Per-page metadata record, shaped after the `Metadata` type used by
`src/consts.ts`. -/
structure Metadata where
  TITLE : String
  DESCRIPTION : String

deriving DecidableEq

/-- One social link, shaped after the entries of `Socials` in
`src/consts.ts`. -/
structure SocialLink where
  NAME : String
  HREF : String

deriving DecidableEq

/-- `SITE` constant from `src/consts.ts`. -/
def SITE : Site :=
  { NAME := "Tushar Sarang"
    EMAIL := "hello@tushar.im"
    NUM_POSTS_ON_HOMEPAGE := 3
    NUM_WORKS_ON_HOMEPAGE := 2
    NUM_PROJECTS_ON_HOMEPAGE := 3 }

/-- `HOME` constant from `src/consts.ts`. -/
def HOME : Metadata :=
  { TITLE := "Home"
    DESCRIPTION := "Tushar\x27s Blog and portfolio" }

/-- `BLOG` constant from `src/consts.ts` (the description typo
"enineering" is authored in the source). -/
def BLOG : Metadata :=
  { TITLE := "Blog"
    DESCRIPTION := "Blogs about software enineering, team management, and more." }

/-- `WORK` constant from `src/consts.ts`. -/
def WORK : Metadata :=
  { TITLE := "Work"
    DESCRIPTION := "Where I have worked and what I have done." }

/-- `PROJECTS` constant from `src/consts.ts`. -/
def PROJECTS : Metadata :=
  { TITLE := "Projects"
    DESCRIPTION := "A collection of my projects, with links to repositories and demos." }

/-- `SOCIALS` constant from `src/consts.ts`, in declaration order. -/
def SOCIALS : List SocialLink :=
  [ { NAME := "twitter-x", HREF := "https://x.com/tushar-im" }
  , { NAME := "github", HREF := "https://github.com/tushar-im" }
  , { NAME := "linkedin", HREF := "https://www.linkedin.com/in/t24" } ]

/-- `INTRO_TEXTS` constant from `src/consts.ts`: the ordered paragraphs of the
homepage introduction (bodies abridged to their opening words; only the order
and count of paragraphs matter to the claims below). -/
def INTRO_TEXTS : List String :=
  [ "I am a Software Engineering Manager with over 7 years of experience in building scalable web applications, managing cloud infrastructure, and leading high-performing engineering teams."
  , "On the technical side, I bring extensive expertise in backend development using Python, Django, and AWS, along with hands-on experience in frontend technologies like TypeScript and Angular."
  , "Explore my work and projects to see how I combine technical expertise and leadership to create impactful results." ]

/-- A calendar date, as parsed from the frontmatter format `MM/DD/YYYY`. -/
structure Date where
  month : Nat
  day : Nat
  year : Nat

deriving DecidableEq

/-- Modelled from the spec: number of days in a calendar month (with leap
years), used to decide whether a parsed date is a valid calendar date. -/
def daysInMonth (y m : Nat) : Nat :=
  if m = 2 then
    if y % 4 = 0 ∧ (y % 100 ≠ 0 ∨ y % 400 = 0) then 29 else 28
  else if m = 4 ∨ m = 6 ∨ m = 9 ∨ m = 11 then 30
  else 31

/-- Modelled from the spec: a valid calendar date. -/
def validDate (d : Date) : Prop :=
  1 ≤ d.month ∧ d.month ≤ 12 ∧ 1 ≤ d.day ∧ d.day ≤ daysInMonth d.year d.month

instance (d : Date) : Decidable (validDate d) := by
  unfold validDate; infer_instance

/-- Chronological order on dates (lexicographic on year, month, day). -/
def dateLe (a b : Date) : Prop :=
  a.year < b.year ∨
    (a.year = b.year ∧
      (a.month < b.month ∨ (a.month = b.month ∧ a.day ≤ b.day)))

instance (a b : Date) : Decidable (dateLe a b) := by
  unfold dateLe; infer_instance

/-- Value of an ASCII digit character. -/
def digitVal (c : Char) : Option Nat :=
  if 48 ≤ c.toNat ∧ c.toNat ≤ 57 then some (c.toNat - 48) else none

/-- Accumulating decimal parser over a list of characters. -/
def parseDigitsAux : Nat → List Char → Option Nat
  | acc, [] => some acc
  | acc, c :: cs =>
    match digitVal c with
    | some v => parseDigitsAux (10 * acc + v) cs
    | none => none

/-- Parse a non-empty all-digit character list as a decimal number. -/
def parseDigits : List Char → Option Nat
  | [] => none
  | c :: cs => parseDigitsAux 0 (c :: cs)

/-- Render `n` as exactly `k` decimal digits (most significant first). -/
def toDigits : Nat → Nat → List Char
  | 0, _ => []
  | k + 1, n => toDigits k (n / 10) ++ [Char.ofNat (48 + n % 10)]

/-- Split a character list into the groups separated by `/`. -/
def splitSlash : List Char → List (List Char)
  | [] => [[]]
  | c :: cs =>
    if c = '/' then [] :: splitSlash cs
    else
      match splitSlash cs with
      | [] => [[c]]
      | g :: gs => (c :: g) :: gs

/-- Modelled from the spec: parse the three `/`-separated groups of a
`MM/DD/YYYY` date string, insisting on two-digit month and day, a four-digit
year, and a valid calendar date. -/
def parseDateParts : List (List Char) → Option Date
  | [m, d, y] =>
    if m.length = 2 ∧ d.length = 2 ∧ y.length = 4 then
      match parseDigits m, parseDigits d, parseDigits y with
      | some mm, some dd, some yy =>
        if validDate ⟨mm, dd, yy⟩ then some ⟨mm, dd, yy⟩ else none
      | _, _, _ => none
    else none
  | _ => none

/-- Modelled from the spec: parse a frontmatter date string of the format
`MM/DD/YYYY` (the content schema's date format); `none` when unparseable. -/
def parseDate (s : String) : Option Date :=
  parseDateParts (splitSlash s.toList)

/-- Serialize a date back to its `MM/DD/YYYY` frontmatter representation. -/
def formatDate (d : Date) : String :=
  String.mk (toDigits 2 d.month ++ '/' :: (toDigits 2 d.day ++ '/' :: toDigits 4 d.year))

/-- A validated blog entry (typed frontmatter of the `blog` collection). -/
structure BlogEntry where
  title : String
  description : String
  date : Date

deriving DecidableEq

/-- End of a work engagement: the `Present` sentinel or a calendar date. -/
inductive WorkEnd where
  | present : WorkEnd
  | on : Date → WorkEnd

deriving DecidableEq

/-- A validated work entry (typed frontmatter of the `work` collection). -/
structure WorkEntry where
  company : String
  role : String
  dateStart : Date
  dateEnd : WorkEnd

deriving DecidableEq

/-- Modelled from the spec: the error signalled when frontmatter validation
fails, naming the offending file and the failing field. -/
structure SchemaValidationError where
  file : String
  field : String

deriving DecidableEq

/-- First value bound to a key in a raw frontmatter mapping. -/
def lookupField (fm : List (String × String)) (key : String) : Option String :=
  (fm.find? (fun p => p.1 = key)).map (fun p => p.2)

/-- Modelled from the spec: validate the raw frontmatter of a `blog` content
file (required `title`, `description` and parseable `MM/DD/YYYY` `date`),
producing a typed `BlogEntry` or a `SchemaValidationError` naming the file and
the failing field. -/
def validateBlog (file : String) (fm : List (String × String)) :
    Except SchemaValidationError BlogEntry :=
  match lookupField fm "title" with
  | none => .error ⟨file, "title"⟩
  | some t =>
    match lookupField fm "description" with
    | none => .error ⟨file, "description"⟩
    | some descr =>
      match lookupField fm "date" with
      | none => .error ⟨file, "date"⟩
      | some ds =>
        match parseDate ds with
        | none => .error ⟨file, "date"⟩
        | some d => .ok ⟨t, descr, d⟩

/-- Modelled from the spec: validate the raw frontmatter of a `work` content
file (required `company`, `role`, parseable `dateStart`, and `dateEnd` that is
either the literal sentinel `Present` or a parseable date), producing a typed
`WorkEntry` or a `SchemaValidationError` naming the file and the failing
field. -/
def validateWork (file : String) (fm : List (String × String)) :
    Except SchemaValidationError WorkEntry :=
  match lookupField fm "company" with
  | none => .error ⟨file, "company"⟩
  | some comp =>
    match lookupField fm "role" with
    | none => .error ⟨file, "role"⟩
    | some role =>
      match lookupField fm "dateStart" with
      | none => .error ⟨file, "dateStart"⟩
      | some ss =>
        match parseDate ss with
        | none => .error ⟨file, "dateStart"⟩
        | some ds =>
          match lookupField fm "dateEnd" with
          | none => .error ⟨file, "dateEnd"⟩
          | some es =>
            if es = "Present" then .ok ⟨comp, role, ds, .present⟩
            else
              match parseDate es with
              | none => .error ⟨file, "dateEnd"⟩
              | some de => .ok ⟨comp, role, ds, .on de⟩

/-- Modelled from the spec: the recognized set of social-link names (the
names authored in `SOCIALS` and rendered by the site). -/
def recognizedSocialNames : List String :=
  ["twitter-x", "github", "linkedin"]

/-- Modelled from the spec: the error signalled when a site constant
references an undefined enum value; build-time fatal. -/
structure ConfigurationError where
  value : String

deriving DecidableEq

/-- Modelled from the spec: check one social link's name against the
recognized set. -/
def checkSocial (link : SocialLink) : Except ConfigurationError Unit :=
  if link.NAME ∈ recognizedSocialNames then .ok () else .error ⟨link.NAME⟩

/-- Modelled from the spec: build-time check of the whole `SOCIALS` list. -/
def checkSocials : List SocialLink → Except ConfigurationError Unit
  | [] => .ok ()
  | l :: ls =>
    match checkSocial l with
    | .error e => .error e
    | .ok _ => checkSocials ls

/-- Serialize a validated blog entry back to its frontmatter mapping. -/
def serializeBlog (e : BlogEntry) : List (String × String) :=
  [("title", e.title), ("description", e.description), ("date", formatDate e.date)]

/-- Serialize a validated work entry back to its frontmatter mapping. -/
def serializeWork (e : WorkEntry) : List (String × String) :=
  [ ("company", e.company), ("role", e.role)
  , ("dateStart", formatDate e.dateStart)
  , ("dateEnd", match e.dateEnd with
      | .present => "Present"
      | .on d => formatDate d) ]

deriving instance DecidableEq for Except

/-- Display order of blog entries: reverse-chronological by `date`. -/
def blogDesc (a b : BlogEntry) : Prop :=
  dateLe b.date a.date

instance : DecidableRel blogDesc := fun a b =>
  inferInstanceAs (Decidable (dateLe b.date a.date))

instance : IsTotal BlogEntry blogDesc :=
  ⟨fun a b => by unfold blogDesc dateLe; omega⟩

instance : IsTrans BlogEntry blogDesc :=
  ⟨fun a b c h₁ h₂ => by unfold blogDesc dateLe at h₁ h₂ ⊢; omega⟩

/-- Display order of work entries: reverse-chronological by `dateStart`. -/
def workDesc (a b : WorkEntry) : Prop :=
  dateLe b.dateStart a.dateStart

instance : DecidableRel workDesc := fun a b =>
  inferInstanceAs (Decidable (dateLe b.dateStart a.dateStart))

instance : IsTotal WorkEntry workDesc :=
  ⟨fun a b => by unfold workDesc dateLe; omega⟩

instance : IsTrans WorkEntry workDesc :=
  ⟨fun a b c h₁ h₂ => by unfold workDesc dateLe at h₁ h₂ ⊢; omega⟩

/-- Modelled from the spec: stable sort of a blog collection by date
descending (declaration order preserved among equal dates). -/
def sortBlogByDateDesc (l : List BlogEntry) : List BlogEntry :=
  List.insertionSort blogDesc l

/-- Modelled from the spec: stable sort of a work collection by start date
descending. -/
def sortWorkByDateDesc (l : List WorkEntry) : List WorkEntry :=
  List.insertionSort workDesc l

/-- Modelled from the spec: the top `n` blog entries of a summary page —
sort by date descending, then truncate to `n`. -/
def topPosts (n : Nat) (l : List BlogEntry) : List BlogEntry :=
  (sortBlogByDateDesc l).take n

/-- Modelled from the spec: the top `n` work entries of a summary page. -/
def topWorks (n : Nat) (l : List WorkEntry) : List WorkEntry :=
  (sortWorkByDateDesc l).take n

/-- Blog entries surfaced on the homepage. -/
def homepagePosts (l : List BlogEntry) : List BlogEntry :=
  topPosts SITE.NUM_POSTS_ON_HOMEPAGE l

/-- Work entries surfaced on the homepage. -/
def homepageWorks (l : List WorkEntry) : List WorkEntry :=
  topWorks SITE.NUM_WORKS_ON_HOMEPAGE l

/-- Identifier of the authored work content file. -/
def hwSdFile : String := "src/content/work/hw-sd.md"

/-- Frontmatter of the senior-engineer work document in `hw-sd.md`. -/
def workFM_hwSde : List (String × String) :=
  [ ("company", "House Works Technology")
  , ("role", "Senior Software Development Engineer")
  , ("dateStart", "08/01/2022")
  , ("dateEnd", "09/01/2023") ]

/-- Frontmatter of the engineering-manager work document in `hw-sd.md`. -/
def workFM_hwEm : List (String × String) :=
  [ ("company", "House Works Technology")
  , ("role", "Engineering Manager")
  , ("dateStart", "09/01/2023")
  , ("dateEnd", "Present") ]

/-- Frontmatter of the Procedure Technologies work document in `hw-sd.md`. -/
def workFM_procedure : List (String × String) :=
  [ ("company", "Procedure Technologies")
  , ("role", "Senior Software Development Engineer")
  , ("dateStart", "05/01/2017")
  , ("dateEnd", "08/01/2022") ]

/-- Typed record of the senior-engineer work document. -/
def workEntry_hwSde : WorkEntry :=
  ⟨"House Works Technology", "Senior Software Development Engineer",
    ⟨8, 1, 2022⟩, .on ⟨9, 1, 2023⟩⟩

/-- Typed record of the engineering-manager work document. -/
def workEntry_hwEm : WorkEntry :=
  ⟨"House Works Technology", "Engineering Manager", ⟨9, 1, 2023⟩, .present⟩

/-- Typed record of the Procedure Technologies work document. -/
def workEntry_procedure : WorkEntry :=
  ⟨"Procedure Technologies", "Senior Software Development Engineer",
    ⟨5, 1, 2017⟩, .on ⟨8, 1, 2022⟩⟩

/-- Typed record of `src/content/blog/01-drf-direct-upload-s3/index.md`
(dated 10/10/2024). -/
def blogEntry_presigned : BlogEntry :=
  ⟨"Using Presigned URLs in Django Rest Framework",
    "Learn how to implement direct file uploads to Amazon S3 using presigned URLs in a Django Rest Framework project.",
    ⟨10, 10, 2024⟩⟩

/-- Typed record of `src/content/blog/02-drf-model-field-choices/index.md`
(dated 10/11/2024). -/
def blogEntry_choices : BlogEntry :=
  ⟨"Providing Model Field Choices in Django Rest Framework",
    "Learn how to retrieve and provide choices for ChoiceField fields in Django models using a custom mixin in Django Rest Framework.",
    ⟨10, 11, 2024⟩⟩

/-- The hypothetical third blog entry of the spec's example scenario,
dated 10/09/2024. -/
def blogEntry_oct9 : BlogEntry :=
  ⟨"An earlier post", "A post dated 10/09/2024", ⟨10, 9, 2024⟩⟩

/-- Modelled from the spec: validating a collection of blog content files is
an independent map of the pure validator over the files. -/
def validateBlogAll (files : List (String × List (String × String))) :
    List (Except SchemaValidationError BlogEntry) :=
  files.map (fun pr => validateBlog pr.1 pr.2)

/-- Modelled from the spec: validating a collection of work content files is
an independent map of the pure validator over the files. -/
def validateWorkAll (files : List (String × List (String × String))) :
    List (Except SchemaValidationError WorkEntry) :=
  files.map (fun pr => validateWork pr.1 pr.2)

/-- Modelled from the spec: the homepage project list is the authored project
collection truncated to `SITE.NUM_PROJECTS_ON_HOMEPAGE` (no projects
collection is authored under `src/content`, so its entries stay abstract). -/
def homepageProjects {α : Type} (l : List α) : List α :=
  l.take SITE.NUM_PROJECTS_ON_HOMEPAGE

/-- A required blog frontmatter field is missing or (for `date`) fails to
parse. -/
def blogFieldFails (fm : List (String × String)) (k : String) : Prop :=
  lookupField fm k = none ∨
    (k = "date" ∧ ∃ s, lookupField fm "date" = some s ∧ parseDate s = none)

/-- A required work frontmatter field is missing or (for the date fields)
fails to parse; `dateEnd` additionally admits the `Present` sentinel. -/
def workFieldFails (fm : List (String × String)) (k : String) : Prop :=
  lookupField fm k = none ∨
    (k = "dateStart" ∧ ∃ s, lookupField fm "dateStart" = some s ∧ parseDate s = none) ∨
    (k = "dateEnd" ∧ ∃ s, lookupField fm "dateEnd" = some s ∧ s ≠ "Present" ∧ parseDate s = none)

/-- Frontmatter of `src/content/blog/01-drf-direct-upload-s3/index.md`. -/
def blogFM_presigned : List (String × String) :=
  [ ("title", "Using Presigned URLs in Django Rest Framework")
  , ("description", "Learn how to implement direct file uploads to Amazon S3 using presigned URLs in a Django Rest Framework project.")
  , ("date", "10/10/2024") ]

/-- Frontmatter of `src/content/blog/02-drf-model-field-choices/index.md`. -/
def blogFM_choices : List (String × String) :=
  [ ("title", "Providing Model Field Choices in Django Rest Framework")
  , ("description", "Learn how to retrieve and provide choices for ChoiceField fields in Django models using a custom mixin in Django Rest Framework.")
  , ("date", "10/11/2024") ]

theorem dateLe_refl (a : Date) : dateLe a a := by
  unfold dateLe; omega

theorem dateLe_trans {a b c : Date} (h₁ : dateLe a b) (h₂ : dateLe b c) :
    dateLe a c := by
  unfold dateLe at *; omega

theorem dateLe_total (a b : Date) : dateLe a b ∨ dateLe b a := by
  unfold dateLe; omega

theorem daysInMonth_le_31 (y m : Nat) : daysInMonth y m ≤ 31 := by
  unfold daysInMonth
  split
  · split <;> omega
  · split <;> omega

theorem toDigits_length (k n : Nat) : (toDigits k n).length = k := by
  induction k generalizing n with
  | zero => rfl
  | succ k ih => simp [toDigits, ih]

theorem digitVal_ofNat : ∀ r < 10, digitVal (Char.ofNat (48 + r)) = some r := by
  decide

theorem ofNat_digit_ne_slash : ∀ r < 10, Char.ofNat (48 + r) ≠ '/' := by
  decide

theorem toDigits_ne_slash {k n : Nat} {c : Char} (h : c ∈ toDigits k n) :
    c ≠ '/' := by
  induction k generalizing n with
  | zero => simp [toDigits] at h
  | succ k ih =>
    simp only [toDigits, List.mem_append, List.mem_singleton] at h
    rcases h with h | h
    · exact ih h
    · subst h
      exact ofNat_digit_ne_slash (n % 10) (Nat.mod_lt _ (by omega))

theorem parseDigitsAux_append (acc : Nat) (xs ys : List Char) :
    parseDigitsAux acc (xs ++ ys) =
      match parseDigitsAux acc xs with
      | some m => parseDigitsAux m ys
      | none => none := by
  induction xs generalizing acc with
  | nil => simp [parseDigitsAux]
  | cons c cs ih =>
    simp only [List.cons_append, parseDigitsAux]
    cases digitVal c with
    | none => simp
    | some v => simpa using ih (10 * acc + v)

theorem parseDigitsAux_toDigits (k : Nat) :
    ∀ (n acc : Nat), n < 10 ^ k →
      parseDigitsAux acc (toDigits k n) = some (acc * 10 ^ k + n) := by
  induction k with
  | zero =>
    intro n acc h
    simp only [pow_zero] at h
    interval_cases n
    simp [toDigits, parseDigitsAux]
  | succ k ih =>
    intro n acc h
    have hdiv : n / 10 < 10 ^ k := by
      apply Nat.div_lt_of_lt_mul
      calc n < 10 ^ (k + 1) := h
        _ = 10 ^ k * 10 := by ring
        _ ≤ 10 * 10 ^ k := by ring_nf; omega
    simp only [toDigits, parseDigitsAux_append, ih (n / 10) acc hdiv]
    have hmod : n % 10 < 10 := Nat.mod_lt _ (by omega)
    simp only [parseDigitsAux, digitVal_ofNat (n % 10) hmod]
    congr 1
    have := Nat.div_add_mod n 10
    ring_nf
    omega

theorem parseDigits_toDigits {k n : Nat} (hk : 0 < k) (h : n < 10 ^ k) :
    parseDigits (toDigits k n) = some n := by
  have hlen : (toDigits k n).length = k := toDigits_length k n
  have haux := parseDigitsAux_toDigits k n 0 h
  cases hl : toDigits k n with
  | nil => rw [hl] at hlen; simp at hlen; omega
  | cons c cs =>
    rw [hl] at haux
    simpa [parseDigits] using haux

theorem parseDigitsAux_lt :
    ∀ (l : List Char) (acc n : Nat),
      parseDigitsAux acc l = some n → n < (acc + 1) * 10 ^ l.length := by
  intro l
  induction l with
  | nil =>
    intro acc n h
    simp only [parseDigitsAux, Option.some.injEq] at h
    subst h
    simp
  | cons c cs ih =>
    intro acc n h
    cases hv : digitVal c with
    | none =>
      simp only [parseDigitsAux, hv] at h
      exact absurd h (by simp)
    | some v =>
      simp only [parseDigitsAux, hv] at h
      have hb := ih (10 * acc + v) n h
      have hv9 : v ≤ 9 := by
        unfold digitVal at hv
        split at hv
        · simp only [Option.some.injEq] at hv
          omega
        · exact absurd hv (by simp)
      simp only [List.length_cons]
      calc n < (10 * acc + v + 1) * 10 ^ cs.length := hb
        _ ≤ ((acc + 1) * 10) * 10 ^ cs.length := by
            apply Nat.mul_le_mul_right
            omega
        _ = (acc + 1) * 10 ^ (cs.length + 1) := by ring

theorem parseDigits_lt {l : List Char} {n : Nat} (h : parseDigits l = some n) :
    n < 10 ^ l.length := by
  cases l with
  | nil => exact absurd h (by simp [parseDigits])
  | cons c cs =>
    have := parseDigitsAux_lt (c :: cs) 0 n h
    simpa using this

theorem splitSlash_ne_nil (l : List Char) : splitSlash l ≠ [] := by
  cases l with
  | nil => simp [splitSlash]
  | cons c cs =>
    unfold splitSlash
    split
    · simp
    · split <;> simp

theorem splitSlash_no_slash {l : List Char} (h : ∀ c ∈ l, c ≠ '/') :
    splitSlash l = [l] := by
  induction l with
  | nil => rfl
  | cons c cs ih =>
    have hc : c ≠ '/' := h c (List.mem_cons_self c cs)
    have hcs : ∀ x ∈ cs, x ≠ '/' := fun x hx => h x (List.mem_cons_of_mem c hx)
    unfold splitSlash
    rw [if_neg hc, ih hcs]

theorem splitSlash_append {xs : List Char} (h : ∀ c ∈ xs, c ≠ '/')
    (rest : List Char) :
    splitSlash (xs ++ '/' :: rest) = xs :: splitSlash rest := by
  induction xs with
  | nil => simp [splitSlash]
  | cons c cs ih =>
    have hc : c ≠ '/' := h c (List.mem_cons_self c cs)
    have hcs : ∀ x ∈ cs, x ≠ '/' := fun x hx => h x (List.mem_cons_of_mem c hx)
    simp only [List.cons_append]
    conv_lhs => unfold splitSlash
    rw [if_neg hc, ih hcs]

theorem parseDateParts_valid {ps : List (List Char)} {d : Date}
    (h : parseDateParts ps = some d) : validDate d ∧ d.year < 10000 := by
  unfold parseDateParts at h
  split at h
  · rename_i m mm y
    split at h
    · rename_i hlen
      obtain ⟨hm, hd, hy⟩ := hlen
      split at h
      · rename_i pm pd py hmm hdd hyy
        split at h
        · rename_i hv
          simp only [Option.some.injEq] at h
          subst h
          refine ⟨hv, ?_⟩
          have := parseDigits_lt hyy
          rw [hy] at this
          simpa using this
        · exact absurd h (by simp)
      · exact absurd h (by simp)
    · exact absurd h (by simp)
  · exact absurd h (by simp)

theorem parseDate_valid {s : String} {d : Date} (h : parseDate s = some d) :
    validDate d ∧ d.year < 10000 :=
  parseDateParts_valid h

theorem parseDateParts_ok {m dd y : List Char} {a b c : Nat}
    (hm : m.length = 2) (hd : dd.length = 2) (hy : y.length = 4)
    (pm : parseDigits m = some a) (pd : parseDigits dd = some b)
    (pc : parseDigits y = some c) (hv : validDate ⟨a, b, c⟩) :
    parseDateParts [m, dd, y] = some ⟨a, b, c⟩ := by
  simp [parseDateParts, hm, hd, hy, pm, pd, pc, hv]

theorem parseDate_formatDate {d : Date} (hv : validDate d)
    (hy : d.year < 10000) : parseDate (formatDate d) = some d := by
  have hm100 : d.month < 100 := by
    unfold validDate at hv
    omega
  have hd100 : d.day < 100 := by
    have h31 := daysInMonth_le_31 d.year d.month
    unfold validDate at hv
    omega
  have hms : ∀ c ∈ toDigits 2 d.month, c ≠ '/' := fun c hc => toDigits_ne_slash hc
  have hds : ∀ c ∈ toDigits 2 d.day, c ≠ '/' := fun c hc => toDigits_ne_slash hc
  have hys : ∀ c ∈ toDigits 4 d.year, c ≠ '/' := fun c hc => toDigits_ne_slash hc
  have hsplit :
      splitSlash (toDigits 2 d.month ++ '/' :: (toDigits 2 d.day ++ '/' :: toDigits 4 d.year)) =
        [toDigits 2 d.month, toDigits 2 d.day, toDigits 4 d.year] := by
    rw [splitSlash_append hms, splitSlash_append hds, splitSlash_no_slash hys]
  have htl : (formatDate d).toList =
      toDigits 2 d.month ++ '/' :: (toDigits 2 d.day ++ '/' :: toDigits 4 d.year) := rfl
  unfold parseDate
  rw [htl, hsplit]
  exact parseDateParts_ok (toDigits_length 2 d.month) (toDigits_length 2 d.day)
    (toDigits_length 4 d.year)
    (parseDigits_toDigits (by omega) (by simpa using hm100))
    (parseDigits_toDigits (by omega) (by simpa using hd100))
    (parseDigits_toDigits (by omega) (by simpa using hy)) hv

theorem validateBlog_title_none (file : String) {fm : List (String × String)}
    (h : lookupField fm "title" = none) :
    validateBlog file fm = .error ⟨file, "title"⟩ := by
  unfold validateBlog
  rw [h]

theorem validateBlog_descr_none (file : String) {fm : List (String × String)}
    {t : String} (ht : lookupField fm "title" = some t)
    (h : lookupField fm "description" = none) :
    validateBlog file fm = .error ⟨file, "description"⟩ := by
  unfold validateBlog
  rw [ht, h]

theorem validateBlog_date_none (file : String) {fm : List (String × String)}
    {t descr : String} (ht : lookupField fm "title" = some t)
    (hd : lookupField fm "description" = some descr)
    (h : lookupField fm "date" = none) :
    validateBlog file fm = .error ⟨file, "date"⟩ := by
  unfold validateBlog
  rw [ht, hd, h]

theorem validateBlog_date_bad (file : String) {fm : List (String × String)}
    {t descr s : String} (ht : lookupField fm "title" = some t)
    (hd : lookupField fm "description" = some descr)
    (hs : lookupField fm "date" = some s) (hp : parseDate s = none) :
    validateBlog file fm = .error ⟨file, "date"⟩ := by
  simp only [validateBlog, ht, hd, hs, hp]

theorem validateBlog_ok_eq (file : String) {fm : List (String × String)}
    {t descr s : String} {d : Date} (ht : lookupField fm "title" = some t)
    (hd : lookupField fm "description" = some descr)
    (hs : lookupField fm "date" = some s) (hp : parseDate s = some d) :
    validateBlog file fm = .ok ⟨t, descr, d⟩ := by
  simp only [validateBlog, ht, hd, hs, hp]

theorem validateBlog_ok_inv {file : String} {fm : List (String × String)}
    {e : BlogEntry} (h : validateBlog file fm = .ok e) :
    lookupField fm "title" = some e.title ∧
      lookupField fm "description" = some e.description ∧
      ∃ s, lookupField fm "date" = some s ∧ parseDate s = some e.date := by
  cases ht : lookupField fm "title" with
  | none => rw [validateBlog_title_none file ht] at h; exact absurd h (by simp)
  | some t =>
    cases hd : lookupField fm "description" with
    | none => rw [validateBlog_descr_none file ht hd] at h; exact absurd h (by simp)
    | some descr =>
      cases hs : lookupField fm "date" with
      | none => rw [validateBlog_date_none file ht hd hs] at h; exact absurd h (by simp)
      | some s =>
        cases hp : parseDate s with
        | none => rw [validateBlog_date_bad file ht hd hs hp] at h; exact absurd h (by simp)
        | some d =>
          rw [validateBlog_ok_eq file ht hd hs hp] at h
          simp only [Except.ok.injEq] at h
          subst h
          exact ⟨rfl, rfl, s, rfl, hp⟩

theorem validateWork_company_none (file : String) {fm : List (String × String)}
    (h : lookupField fm "company" = none) :
    validateWork file fm = .error ⟨file, "company"⟩ := by
  simp only [validateWork, h]

theorem validateWork_role_none (file : String) {fm : List (String × String)}
    {c : String} (hc : lookupField fm "company" = some c)
    (h : lookupField fm "role" = none) :
    validateWork file fm = .error ⟨file, "role"⟩ := by
  simp only [validateWork, hc, h]

theorem validateWork_start_none (file : String) {fm : List (String × String)}
    {c r : String} (hc : lookupField fm "company" = some c)
    (hr : lookupField fm "role" = some r)
    (h : lookupField fm "dateStart" = none) :
    validateWork file fm = .error ⟨file, "dateStart"⟩ := by
  simp only [validateWork, hc, hr, h]

theorem validateWork_start_bad (file : String) {fm : List (String × String)}
    {c r ss : String} (hc : lookupField fm "company" = some c)
    (hr : lookupField fm "role" = some r)
    (hss : lookupField fm "dateStart" = some ss) (hp : parseDate ss = none) :
    validateWork file fm = .error ⟨file, "dateStart"⟩ := by
  simp only [validateWork, hc, hr, hss, hp]

theorem validateWork_end_none (file : String) {fm : List (String × String)}
    {c r ss : String} {ds : Date} (hc : lookupField fm "company" = some c)
    (hr : lookupField fm "role" = some r)
    (hss : lookupField fm "dateStart" = some ss) (hp : parseDate ss = some ds)
    (h : lookupField fm "dateEnd" = none) :
    validateWork file fm = .error ⟨file, "dateEnd"⟩ := by
  simp only [validateWork, hc, hr, hss, hp, h]

theorem validateWork_end_present (file : String) {fm : List (String × String)}
    {c r ss : String} {ds : Date} (hc : lookupField fm "company" = some c)
    (hr : lookupField fm "role" = some r)
    (hss : lookupField fm "dateStart" = some ss) (hp : parseDate ss = some ds)
    (hes : lookupField fm "dateEnd" = some "Present") :
    validateWork file fm = .ok ⟨c, r, ds, .present⟩ := by
  simp [validateWork, hc, hr, hss, hp, hes]

theorem validateWork_end_bad (file : String) {fm : List (String × String)}
    {c r ss es : String} {ds : Date} (hc : lookupField fm "company" = some c)
    (hr : lookupField fm "role" = some r)
    (hss : lookupField fm "dateStart" = some ss) (hp : parseDate ss = some ds)
    (hes : lookupField fm "dateEnd" = some es) (hne : es ≠ "Present")
    (hpe : parseDate es = none) :
    validateWork file fm = .error ⟨file, "dateEnd"⟩ := by
  simp only [validateWork, hc, hr, hss, hp, hes, if_neg hne, hpe]

theorem validateWork_end_date (file : String) {fm : List (String × String)}
    {c r ss es : String} {ds de : Date} (hc : lookupField fm "company" = some c)
    (hr : lookupField fm "role" = some r)
    (hss : lookupField fm "dateStart" = some ss) (hp : parseDate ss = some ds)
    (hes : lookupField fm "dateEnd" = some es) (hne : es ≠ "Present")
    (hpe : parseDate es = some de) :
    validateWork file fm = .ok ⟨c, r, ds, .on de⟩ := by
  simp only [validateWork, hc, hr, hss, hp, hes, if_neg hne, hpe]

theorem validateWork_ok_inv {file : String} {fm : List (String × String)}
    {e : WorkEntry} (h : validateWork file fm = .ok e) :
    lookupField fm "company" = some e.company ∧
      lookupField fm "role" = some e.role ∧
      (∃ s, lookupField fm "dateStart" = some s ∧ parseDate s = some e.dateStart) ∧
      ∃ s, lookupField fm "dateEnd" = some s ∧
        ((s = "Present" ∧ e.dateEnd = .present) ∨
          (s ≠ "Present" ∧ ∃ d, parseDate s = some d ∧ e.dateEnd = .on d)) := by
  cases hc : lookupField fm "company" with
  | none => rw [validateWork_company_none file hc] at h; exact absurd h (by simp)
  | some c =>
    cases hr : lookupField fm "role" with
    | none => rw [validateWork_role_none file hc hr] at h; exact absurd h (by simp)
    | some r =>
      cases hss : lookupField fm "dateStart" with
      | none => rw [validateWork_start_none file hc hr hss] at h; exact absurd h (by simp)
      | some ss =>
        cases hp : parseDate ss with
        | none => rw [validateWork_start_bad file hc hr hss hp] at h; exact absurd h (by simp)
        | some ds =>
          cases hes : lookupField fm "dateEnd" with
          | none =>
            rw [validateWork_end_none file hc hr hss hp hes] at h
            exact absurd h (by simp)
          | some es =>
            by_cases hne : es = "Present"
            · subst hne
              rw [validateWork_end_present file hc hr hss hp hes] at h
              simp only [Except.ok.injEq] at h
              subst h
              exact ⟨rfl, rfl, ⟨ss, rfl, hp⟩, "Present", rfl, Or.inl ⟨rfl, rfl⟩⟩
            · cases hpe : parseDate es with
              | none =>
                rw [validateWork_end_bad file hc hr hss hp hes hne hpe] at h
                exact absurd h (by simp)
              | some de =>
                rw [validateWork_end_date file hc hr hss hp hes hne hpe] at h
                simp only [Except.ok.injEq] at h
                subst h
                exact ⟨rfl, rfl, ⟨ss, rfl, hp⟩, es, rfl, Or.inr ⟨hne, de, hpe, rfl⟩⟩

theorem filter_insertionSort_eq {α : Type} (r : α → α → Prop) [DecidableRel r]
    (p : α → Bool) (l : List α) (hp : ∀ x y, p x = true → p y = true → r x y) :
    (List.insertionSort r l).filter p = l.filter p := by
  have hpw : (l.filter p).Pairwise r := by
    rw [List.pairwise_iff_forall_sublist]
    intro a b hab
    have ha : a ∈ l.filter p := hab.subset (by simp)
    have hb : b ∈ l.filter p := hab.subset (by simp)
    exact hp a b (List.of_mem_filter ha) (List.of_mem_filter hb)
  have h1 : List.Sublist (l.filter p) (List.insertionSort r l) :=
    List.sublist_insertionSort hpw (List.filter_sublist l)
  have h2 : List.Perm ((List.insertionSort r l).filter p) (l.filter p) :=
    (List.perm_insertionSort r l).filter p
  have h5 : (l.filter p).filter p = l.filter p :=
    List.filter_eq_self.mpr (fun a ha => List.of_mem_filter ha)
  have h3 : List.Sublist (l.filter p) ((List.insertionSort r l).filter p) := by
    have h4 := h1.filter p
    rwa [h5] at h4
  exact (h3.eq_of_length h2.length_eq.symm).symm

/-- C1: for every collection of validated entries and every `n`, the top-`n`
selection returns exactly `min n total` entries in descending date order,
`n = 0` yields the empty sequence, and the homepage surfaces at most
`SITE.NUM_POSTS_ON_HOMEPAGE` blog entries and `SITE.NUM_WORKS_ON_HOMEPAGE`
work entries. -/
theorem top_n_truncation (n : Nat) (bl : List BlogEntry) (wl : List WorkEntry) :
    (topPosts n bl).length = min n bl.length ∧
    (topPosts n bl).Pairwise blogDesc ∧
    topPosts 0 bl = [] ∧
    (topWorks n wl).length = min n wl.length ∧
    (topWorks n wl).Pairwise workDesc ∧
    topWorks 0 wl = [] ∧
    (homepagePosts bl).length ≤ SITE.NUM_POSTS_ON_HOMEPAGE ∧
    (homepageWorks wl).length ≤ SITE.NUM_WORKS_ON_HOMEPAGE := by
  refine ⟨?_, ?_, rfl, ?_, ?_, rfl, ?_, ?_⟩
  · simp [topPosts, sortBlogByDateDesc]
  · exact List.Pairwise.sublist (List.take_sublist n _)
      (List.sorted_insertionSort blogDesc bl)
  · simp [topWorks, sortWorkByDateDesc]
  · exact List.Pairwise.sublist (List.take_sublist n _)
      (List.sorted_insertionSort workDesc wl)
  · have h : (homepagePosts bl).length = min SITE.NUM_POSTS_ON_HOMEPAGE bl.length := by
      simp [homepagePosts, topPosts, sortBlogByDateDesc]
    omega
  · have h : (homepageWorks wl).length = min SITE.NUM_WORKS_ON_HOMEPAGE wl.length := by
      simp [homepageWorks, topWorks, sortWorkByDateDesc]
    omega

/-- C2: sorting blog and work collections by date descending is stable —
entries with equal sort dates keep their original declaration order (the
entries carrying any fixed date appear in the sorted output exactly as they
appear in the input). -/
theorem sort_by_date_stable (bl : List BlogEntry) (wl : List WorkEntry)
    (d : Date) :
    (sortBlogByDateDesc bl).filter (fun e => e.date == d) =
        bl.filter (fun e => e.date == d) ∧
      (sortWorkByDateDesc wl).filter (fun e => e.dateStart == d) =
        wl.filter (fun e => e.dateStart == d) := by
  constructor
  · apply filter_insertionSort_eq
    intro x y hx hy
    have hx' : x.date = d := by simpa using hx
    have hy' : y.date = d := by simpa using hy
    show dateLe y.date x.date
    rw [hx', hy']
    exact dateLe_refl d
  · apply filter_insertionSort_eq
    intro x y hx hy
    have hx' : x.dateStart = d := by simpa using hx
    have hy' : y.dateStart = d := by simpa using hy
    show dateLe y.dateStart x.dateStart
    rw [hx', hy']
    exact dateLe_refl d

/-- C6: with exactly the three blog entries dated 10/10/2024, 10/11/2024 and
10/09/2024 and `NUM_POSTS_ON_HOMEPAGE = 3`, the homepage blog list is exactly
the sequence 10/11/2024, 10/10/2024, 10/09/2024. -/
theorem homepage_example_scenario :
    SITE.NUM_POSTS_ON_HOMEPAGE = 3 ∧
      homepagePosts [blogEntry_presigned, blogEntry_choices, blogEntry_oct9] =
        [blogEntry_choices, blogEntry_presigned, blogEntry_oct9] := by
  exact ⟨rfl, by decide⟩

/-- C7: the constants export surface exposes the `SITE` record (name, email
and the three per-page counts), the four page metadata records, the ordered
social links and the ordered introductory paragraphs, exactly as authored in
`src/consts.ts` (immutability is intrinsic: they are constants). -/
theorem consts_export_surface :
    SITE = ⟨"Tushar Sarang", "hello@tushar.im", 3, 2, 3⟩ ∧
    HOME = ⟨"Home", "Tushar\x27s Blog and portfolio"⟩ ∧
    BLOG = ⟨"Blog", "Blogs about software enineering, team management, and more."⟩ ∧
    WORK = ⟨"Work", "Where I have worked and what I have done."⟩ ∧
    PROJECTS = ⟨"Projects", "A collection of my projects, with links to repositories and demos."⟩ ∧
    SOCIALS = [⟨"twitter-x", "https://x.com/tushar-im"⟩,
      ⟨"github", "https://github.com/tushar-im"⟩,
      ⟨"linkedin", "https://www.linkedin.com/in/t24"⟩] ∧
    INTRO_TEXTS.length = 3 :=
  ⟨rfl, rfl, rfl, rfl, rfl, rfl, rfl⟩

/-- C10: the per-page surfacing limits are concretely 3 blog posts, 2 work
entries and 3 projects, so the homepage never shows more than that many of
each. -/
theorem homepage_concrete_limits :
    SITE.NUM_POSTS_ON_HOMEPAGE = 3 ∧
    SITE.NUM_WORKS_ON_HOMEPAGE = 2 ∧
    SITE.NUM_PROJECTS_ON_HOMEPAGE = 3 ∧
    (∀ bl : List BlogEntry, (homepagePosts bl).length ≤ 3) ∧
    (∀ wl : List WorkEntry, (homepageWorks wl).length ≤ 2) ∧
    (∀ pl : List String, (homepageProjects pl).length ≤ 3) := by
  refine ⟨rfl, rfl, rfl, ?_, ?_, ?_⟩
  · intro bl
    have h : (homepagePosts bl).length = min SITE.NUM_POSTS_ON_HOMEPAGE bl.length := by
      simp [homepagePosts, topPosts, sortBlogByDateDesc]
    have h3 : SITE.NUM_POSTS_ON_HOMEPAGE = 3 := rfl
    omega
  · intro wl
    have h : (homepageWorks wl).length = min SITE.NUM_WORKS_ON_HOMEPAGE wl.length := by
      simp [homepageWorks, topWorks, sortWorkByDateDesc]
    have h2 : SITE.NUM_WORKS_ON_HOMEPAGE = 2 := rfl
    omega
  · intro pl
    have h : (homepageProjects pl).length = min SITE.NUM_PROJECTS_ON_HOMEPAGE pl.length := by
      simp [homepageProjects]
    have h3 : SITE.NUM_PROJECTS_ON_HOMEPAGE = 3 := rfl
    omega

/-- C3: a frontmatter mapping that misses a required field, carries an
unparseable date, or (for the social-link enum) a name outside the recognized
set, makes validation fail with an error naming the file and a genuinely
failing field; a successful validation returns a record fully populated from
the input, never a partial one. -/
theorem validation_failure_spec (file : String) (fm : List (String × String)) :
    ((blogFieldFails fm "title" ∨ blogFieldFails fm "description" ∨
        blogFieldFails fm "date") →
      ∃ err, validateBlog file fm = .error err ∧ err.file = file ∧
        (err.field = "title" ∨ err.field = "description" ∨ err.field = "date") ∧
        blogFieldFails fm err.field) ∧
    (∀ e, validateBlog file fm = .ok e →
      lookupField fm "title" = some e.title ∧
        lookupField fm "description" = some e.description ∧
        ∃ s, lookupField fm "date" = some s ∧ parseDate s = some e.date) ∧
    ((workFieldFails fm "company" ∨ workFieldFails fm "role" ∨
        workFieldFails fm "dateStart" ∨ workFieldFails fm "dateEnd") →
      ∃ err, validateWork file fm = .error err ∧ err.file = file ∧
        (err.field = "company" ∨ err.field = "role" ∨ err.field = "dateStart" ∨
          err.field = "dateEnd") ∧
        workFieldFails fm err.field) ∧
    (∀ e, validateWork file fm = .ok e →
      lookupField fm "company" = some e.company ∧
        lookupField fm "role" = some e.role ∧
        (∃ s, lookupField fm "dateStart" = some s ∧ parseDate s = some e.dateStart) ∧
        ∃ s, lookupField fm "dateEnd" = some s ∧
          ((s = "Present" ∧ e.dateEnd = .present) ∨
            (s ≠ "Present" ∧ ∃ d, parseDate s = some d ∧ e.dateEnd = .on d))) ∧
    (∀ link : SocialLink, link.NAME ∉ recognizedSocialNames →
      checkSocial link = .error ⟨link.NAME⟩) := by
  refine ⟨?_, fun e h => validateBlog_ok_inv h, ?_, fun e h => validateWork_ok_inv h, ?_⟩
  · intro hfail
    cases ht : lookupField fm "title" with
    | none =>
      exact ⟨⟨file, "title"⟩, validateBlog_title_none file ht, rfl, Or.inl rfl,
        Or.inl ht⟩
    | some t =>
      cases hd : lookupField fm "description" with
      | none =>
        exact ⟨⟨file, "description"⟩, validateBlog_descr_none file ht hd, rfl,
          Or.inr (Or.inl rfl), Or.inl hd⟩
      | some descr =>
        cases hs : lookupField fm "date" with
        | none =>
          exact ⟨⟨file, "date"⟩, validateBlog_date_none file ht hd hs, rfl,
            Or.inr (Or.inr rfl), Or.inl hs⟩
        | some s =>
          cases hp : parseDate s with
          | none =>
            exact ⟨⟨file, "date"⟩, validateBlog_date_bad file ht hd hs hp, rfl,
              Or.inr (Or.inr rfl), Or.inr ⟨rfl, s, hs, hp⟩⟩
          | some d =>
            exfalso
            rcases hfail with h | h | h <;> rcases h with h | ⟨hk, s', hs', hp'⟩
            · exact absurd ht (by rw [h]; simp)
            · exact absurd hk (by decide)
            · exact absurd hd (by rw [h]; simp)
            · exact absurd hk (by decide)
            · exact absurd hs (by rw [h]; simp)
            · rw [hs] at hs'
              simp only [Option.some.injEq] at hs'
              subst hs'
              rw [hp] at hp'
              exact absurd hp' (by simp)
  · intro hfail
    cases hc : lookupField fm "company" with
    | none =>
      exact ⟨⟨file, "company"⟩, validateWork_company_none file hc, rfl,
        Or.inl rfl, Or.inl hc⟩
    | some c =>
      cases hr : lookupField fm "role" with
      | none =>
        exact ⟨⟨file, "role"⟩, validateWork_role_none file hc hr, rfl,
          Or.inr (Or.inl rfl), Or.inl hr⟩
      | some r =>
        cases hss : lookupField fm "dateStart" with
        | none =>
          exact ⟨⟨file, "dateStart"⟩, validateWork_start_none file hc hr hss, rfl,
            Or.inr (Or.inr (Or.inl rfl)), Or.inl hss⟩
        | some ss =>
          cases hps : parseDate ss with
          | none =>
            exact ⟨⟨file, "dateStart"⟩, validateWork_start_bad file hc hr hss hps,
              rfl, Or.inr (Or.inr (Or.inl rfl)),
              Or.inr (Or.inl ⟨rfl, ss, hss, hps⟩)⟩
          | some ds =>
            cases hes : lookupField fm "dateEnd" with
            | none =>
              exact ⟨⟨file, "dateEnd"⟩, validateWork_end_none file hc hr hss hps hes,
                rfl, Or.inr (Or.inr (Or.inr rfl)), Or.inl hes⟩
            | some es =>
              by_cases hne : es = "Present"
              · exfalso
                subst hne
                rcases hfail with h | h | h | h <;>
                  rcases h with h | ⟨hk, s', hs', hrest⟩ | ⟨hk, s', hs', hrest⟩
                · exact absurd hc (by rw [h]; simp)
                · exact absurd hk (by decide)
                · exact absurd hk (by decide)
                · exact absurd hr (by rw [h]; simp)
                · exact absurd hk (by decide)
                · exact absurd hk (by decide)
                · exact absurd hss (by rw [h]; simp)
                · rw [hss] at hs'
                  simp only [Option.some.injEq] at hs'
                  subst hs'
                  rw [hps] at hrest
                  exact absurd hrest (by simp)
                · exact absurd hk (by decide)
                · exact absurd hes (by rw [h]; simp)
                · exact absurd hk (by decide)
                · obtain ⟨hne', hp'⟩ := hrest
                  rw [hes] at hs'
                  simp only [Option.some.injEq] at hs'
                  subst hs'
                  exact hne' rfl
              · cases hpe : parseDate es with
                | none =>
                  exact ⟨⟨file, "dateEnd"⟩,
                    validateWork_end_bad file hc hr hss hps hes hne hpe, rfl,
                    Or.inr (Or.inr (Or.inr rfl)),
                    Or.inr (Or.inr ⟨rfl, es, hes, hne, hpe⟩)⟩
                | some de =>
                  exfalso
                  rcases hfail with h | h | h | h <;>
                    rcases h with h | ⟨hk, s', hs', hrest⟩ | ⟨hk, s', hs', hrest⟩
                  · exact absurd hc (by rw [h]; simp)
                  · exact absurd hk (by decide)
                  · exact absurd hk (by decide)
                  · exact absurd hr (by rw [h]; simp)
                  · exact absurd hk (by decide)
                  · exact absurd hk (by decide)
                  · exact absurd hss (by rw [h]; simp)
                  · rw [hss] at hs'
                    simp only [Option.some.injEq] at hs'
                    subst hs'
                    rw [hps] at hrest
                    exact absurd hrest (by simp)
                  · exact absurd hk (by decide)
                  · exact absurd hes (by rw [h]; simp)
                  · exact absurd hk (by decide)
                  · obtain ⟨hne', hp'⟩ := hrest
                    rw [hes] at hs'
                    simp only [Option.some.injEq] at hs'
                    subst hs'
                    rw [hpe] at hp'
                    exact absurd hp' (by simp)
  · intro link hlink
    unfold checkSocial
    rw [if_neg hlink]

/-- Witness for C3 at a concrete input: the empty blog frontmatter is missing
`title`, and validation fails naming the file and a failing field. -/
theorem validation_failure_spec_witness :
    ∃ err, validateBlog "blog/empty.md" [] = .error err ∧
      err.file = "blog/empty.md" ∧
      (err.field = "title" ∨ err.field = "description" ∨ err.field = "date") ∧
      blogFieldFails [] err.field :=
  (validation_failure_spec "blog/empty.md" []).1 (Or.inl (Or.inl rfl))

theorem formatDate_ne_present (d : Date) : formatDate d ≠ "Present" := by
  intro h
  have hlen : (formatDate d).length = 10 := by
    simp [formatDate, String.length, toDigits_length]
  rw [h] at hlen
  exact absurd hlen (by decide)

/-- C4: every validated work entry's `dateEnd` is the `Present` sentinel or a
valid calendar date, and each of the three work documents authored in
`src/content/work/hw-sd.md` validates with `dateStart ≤ dateEnd` whenever
`dateEnd` is a date. -/
theorem work_dateEnd_invariant :
    (∀ (file : String) (fm : List (String × String)) (e : WorkEntry),
        validateWork file fm = .ok e →
        e.dateEnd = .present ∨ ∃ d, e.dateEnd = .on d ∧ validDate d) ∧
    (validateWork hwSdFile workFM_hwSde = .ok workEntry_hwSde ∧
      workEntry_hwSde.dateEnd = .on ⟨9, 1, 2023⟩ ∧
      dateLe workEntry_hwSde.dateStart ⟨9, 1, 2023⟩) ∧
    (validateWork hwSdFile workFM_hwEm = .ok workEntry_hwEm ∧
      workEntry_hwEm.dateEnd = .present) ∧
    (validateWork hwSdFile workFM_procedure = .ok workEntry_procedure ∧
      workEntry_procedure.dateEnd = .on ⟨8, 1, 2022⟩ ∧
      dateLe workEntry_procedure.dateStart ⟨8, 1, 2022⟩) := by
  refine ⟨?_, by decide, by decide, by decide⟩
  intro file fm e h
  obtain ⟨-, -, -, s, -, hrest⟩ := validateWork_ok_inv h
  rcases hrest with ⟨-, hP⟩ | ⟨-, d, hpd, hOn⟩
  · exact Or.inl hP
  · exact Or.inr ⟨d, hOn, (parseDate_valid hpd).1⟩

/-- Witness for C4 at a concrete input: the first authored work document. -/
theorem work_dateEnd_invariant_witness :
    workEntry_hwSde.dateEnd = .present ∨
      ∃ d, workEntry_hwSde.dateEnd = .on d ∧ validDate d :=
  work_dateEnd_invariant.1 hwSdFile workFM_hwSde workEntry_hwSde (by decide)

/-- C5: serializing a validated entry back to frontmatter and re-validating
(under any file identifier) returns the identical typed record. -/
theorem validate_roundtrip (file₁ file₂ : String) (fm : List (String × String)) :
    (∀ e, validateBlog file₁ fm = .ok e →
      validateBlog file₂ (serializeBlog e) = .ok e) ∧
    (∀ e, validateWork file₁ fm = .ok e →
      validateWork file₂ (serializeWork e) = .ok e) := by
  constructor
  · intro e h
    obtain ⟨-, -, s, -, hp⟩ := validateBlog_ok_inv h
    obtain ⟨hv, hy⟩ := parseDate_valid hp
    have hr : parseDate (formatDate e.date) = some e.date := parseDate_formatDate hv hy
    have h1 : lookupField (serializeBlog e) "title" = some e.title := rfl
    have h2 : lookupField (serializeBlog e) "description" = some e.description := rfl
    have h3 : lookupField (serializeBlog e) "date" = some (formatDate e.date) := rfl
    exact validateBlog_ok_eq file₂ h1 h2 h3 hr
  · intro e h
    obtain ⟨-, -, ⟨ss, -, hps⟩, es, -, hrest⟩ := validateWork_ok_inv h
    obtain ⟨hv, hy⟩ := parseDate_valid hps
    have hrs : parseDate (formatDate e.dateStart) = some e.dateStart :=
      parseDate_formatDate hv hy
    have h1 : lookupField (serializeWork e) "company" = some e.company := rfl
    have h2 : lookupField (serializeWork e) "role" = some e.role := rfl
    have h3 : lookupField (serializeWork e) "dateStart" = some (formatDate e.dateStart) := rfl
    have h40 : lookupField (serializeWork e) "dateEnd" =
        some (match e.dateEnd with
          | .present => "Present"
          | .on d => formatDate d) := rfl
    rcases hrest with ⟨-, hePresent⟩ | ⟨-, d, hpd, heOn⟩
    · have h4 : lookupField (serializeWork e) "dateEnd" = some "Present" := by
        rw [h40]
        simp only [hePresent]
      have h5 := validateWork_end_present file₂ h1 h2 h3 hrs h4
      rw [← hePresent] at h5
      exact h5
    · obtain ⟨hvd, hyd⟩ := parseDate_valid hpd
      have hrd : parseDate (formatDate d) = some d := parseDate_formatDate hvd hyd
      have h4 : lookupField (serializeWork e) "dateEnd" = some (formatDate d) := by
        rw [h40]
        simp only [heOn]
      have h5 := validateWork_end_date file₂ h1 h2 h3 hrs h4
        (formatDate_ne_present d) hrd
      rw [← heOn] at h5
      exact h5

/-- Witness for C5 at a concrete input: the first authored blog post
round-trips through serialize and re-validate. -/
theorem validate_roundtrip_witness :
    validateBlog "roundtrip.md" (serializeBlog blogEntry_presigned) =
      .ok blogEntry_presigned :=
  (validate_roundtrip "src/content/blog/01-drf-direct-upload-s3/index.md"
    "roundtrip.md" blogFM_presigned).1 blogEntry_presigned (by decide)

/-- C8: every authored social link's name is in the recognized enum set, the
build-time check of `SOCIALS` passes, and any link whose name lies outside
the recognized set is a `ConfigurationError`. -/
theorem socials_enum_membership :
    (∀ link ∈ SOCIALS, link.NAME ∈ recognizedSocialNames) ∧
    checkSocials SOCIALS = .ok () ∧
    (∀ link : SocialLink, link.NAME ∉ recognizedSocialNames →
      checkSocial link = .error ⟨link.NAME⟩) := by
  refine ⟨by decide, by decide, ?_⟩
  intro link h
  unfold checkSocial
  rw [if_neg h]

/-- Witness for C8 at a concrete input: a link with an unrecognized name is
rejected. -/
theorem socials_enum_membership_witness :
    checkSocial ⟨"mastodon", "https://example.org/x"⟩ = .error ⟨"mastodon"⟩ :=
  socials_enum_membership.2.2 ⟨"mastodon", "https://example.org/x"⟩ (by decide)

/-- C9: validation is pure and deterministic — repeated calls on the same
input agree, and validating a file inside any collection yields exactly the
independent per-file result, unaffected by the other files around it. -/
theorem validation_pure (file : String) (fm : List (String × String))
    (pre post : List (String × List (String × String))) :
    validateBlog file fm = validateBlog file fm ∧
    validateWork file fm = validateWork file fm ∧
    validateBlogAll (pre ++ (file, fm) :: post) =
      validateBlogAll pre ++ validateBlog file fm :: validateBlogAll post ∧
    validateWorkAll (pre ++ (file, fm) :: post) =
      validateWorkAll pre ++ validateWork file fm :: validateWorkAll post := by
  refine ⟨rfl, rfl, ?_, ?_⟩ <;> simp [validateBlogAll, validateWorkAll]
